import Mathlib

/-!
Verification development for the reference-checking pipeline.

The Python sources are embedded shallowly:
* strings are `List Char` (`Str`), so every Python string operation used by the
  code (`strip`, `split`, slicing, membership) is an executable Lean function;
* the regular expressions of `main.py` are embedded via a small backtracking
  regex engine (`RE`, `matchRE`, `searchRE`, `subAllRE`) whose match lists are
  ordered by Python's backtracking priority (greedy repetition first,
  left alternative first), so the head of the list is exactly the match
  `re.search` returns;
* external effects (HTTP download, LLM call, PDF/DOCX libraries, database)
  are oracle parameters that may fail (`Except`), mirroring the `try/except`
  boundaries of the source.
-/

namespace RefCheck

abbrev Str := List Char

/-- Python `str.strip` whitespace set (ASCII part, matching the inputs in scope). -/
def isSpaceC (c : Char) : Bool :=
  c = ' ' || c = '\t' || c = '\n' || c = '\r' || c = Char.ofNat 11 || c = Char.ofNat 12

/-- Python `str.strip()` on both ends. -/
def pyStrip (s : Str) : Str :=
  ((s.dropWhile isSpaceC).reverse.dropWhile isSpaceC).reverse

/-- Python `str.split()` with no argument: split on whitespace runs, dropping empties. -/
def pySplitWs : Str → List Str
  | [] => []
  | c :: cs =>
    if isSpaceC c then pySplitWs cs
    else ((c :: cs).takeWhile (fun d => !isSpaceC d)) :: pySplitWs (cs.dropWhile (fun d => !isSpaceC d))
termination_by s => s.length
decreasing_by
  · simp
  · have := (List.dropWhile_suffix (l := cs) (fun d => !isSpaceC d)).sublist.length_le
    simp only [List.length_cons]
    omega

/-- Python `' '.join(words)`. -/
def joinSpace : List Str → Str
  | [] => []
  | [w] => w
  | w :: ws => w ++ ' ' :: joinSpace ws

/-- Python `str.split(sep)` for a one-character separator. -/
def splitOnC (sep : Char) : Str → List Str
  | [] => [[]]
  | c :: cs =>
    let rest := splitOnC sep cs
    if c = sep then [] :: rest
    else
      match rest with
      | [] => [[c]]
      | p :: ps => (c :: p) :: ps

/-- Python `needle in haystack` substring containment. -/
def containsSub (needle : Str) : Str → Bool
  | [] => needle.isPrefixOf []
  | c :: cs => needle.isPrefixOf (c :: cs) || containsSub needle cs

/-- Python `str.lower()` (ASCII). -/
def lowerStr (s : Str) : Str := s.map Char.toLower

/-- Word character for the regex `\b` assertion (`[A-Za-z0-9_]`, ASCII). -/
def isWordC (c : Char) : Bool := c.isAlpha || c.isDigit || c = '_'

/-! ## Regex engine

A regex AST covering exactly the constructs used by `main.py`'s patterns:
character classes, concatenation, ordered alternation, greedy option,
greedy bounded/unbounded repetition of a character class, and the word
boundary assertion `\b`. -/

inductive RE where
  | eps : RE
  | cls : (Char → Bool) → RE
  | seq : RE → RE → RE
  | alt : RE → RE → RE
  | opt : RE → RE
  | repCls : (Char → Bool) → Nat → Option Nat → RE
  | wordB : RE

/-- The character preceding the rest of the input, after consuming `xs`. -/
def lastPrev (xs : Str) (prev : Option Char) : Option Char :=
  match xs.getLast? with
  | some c => some c
  | none => prev

/-- All ways `r` can match a prefix of `l` (consumed, rest), in Python
backtracking priority order: the head is the match Python's engine commits to.
`prev` is the character just before `l` in the full subject (for `\b`). -/
def matchRE : RE → Option Char → Str → List (Str × Str)
  | .eps, _, l => [([], l)]
  | .cls _, _, [] => []
  | .cls q, _, c :: cs => if q c then [([c], cs)] else []
  | .seq a b, p, l =>
    (matchRE a p l).flatMap fun x =>
      (matchRE b (lastPrev x.1 p) x.2).map fun y => (x.1 ++ y.1, y.2)
  | .alt a b, p, l => matchRE a p l ++ matchRE b p l
  | .opt a, p, l => matchRE a p l ++ [([], l)]
  | .repCls q lo hi, _, l =>
    let run := l.takeWhile q
    let maxn := match hi with | some h => min h run.length | none => run.length
    (List.range (maxn + 1 - lo)).map fun i => (l.take (maxn - i), l.drop (maxn - i))
  | .wordB, p, l =>
    let pw := match p with | some c => isWordC c | none => false
    let nw := match l with | c :: _ => isWordC c | [] => false
    if pw ≠ nw then [([], l)] else []

/-- Python `re.search`: leftmost position with a match, then priority order.
Returns `(before, matched, after)`. `prev` is the character before `l`. -/
def searchRE (r : RE) : Option Char → Str → Option (Str × Str × Str)
  | prev, l =>
    match matchRE r prev l with
    | (m, rest) :: _ => some ([], m, rest)
    | [] =>
      match l with
      | [] => none
      | c :: cs =>
        match searchRE r (some c) cs with
        | some (bef, m, aft) => some (c :: bef, m, aft)
        | none => none

/-- Python `re.sub(r, '', s)`: remove all non-overlapping matches, scanning
left to right.  `fuel` bounds the recursion; every pattern in scope matches at
least one character, so `fuel = length + 1` never runs out. -/
def subAllFuel (r : RE) : Nat → Option Char → Str → Str
  | 0, _, l => l
  | fuel + 1, prev, l =>
    match searchRE r prev l with
    | none => l
    | some (bef, m, aft) =>
      match m with
      | [] => l
      | _ => bef ++ subAllFuel r fuel (lastPrev m (lastPrev bef prev)) aft

/-- Python `re.sub(r, '', s)` at the top level. -/
def subAllRE (r : RE) (l : Str) : Str := subAllFuel r (l.length + 1) none l

/-! ## The concrete patterns of `main.py` -/

def isDigitC (c : Char) : Bool := c.isDigit

/-- Class `[A-Za-z0-9._%+-]` (email local part, `main.py` line 76). -/
def emailLocalC (c : Char) : Bool :=
  c.isAlpha || c.isDigit || c = '.' || c = '_' || c = '%' || c = '+' || c = '-'

/-- Class `[A-Za-z0-9.-]` (email domain). -/
def emailDomC (c : Char) : Bool := c.isAlpha || c.isDigit || c = '.' || c = '-'

/-- Class `[A-Z|a-z]` (email TLD; the source's class literally contains a bar). -/
def emailTldC (c : Char) : Bool :=
  ('A' ≤ c && c ≤ 'Z') || ('a' ≤ c && c ≤ 'z') || c = '|'

/-- Pattern `\b[A-Za-z0-9._%+-]+@[A-Za-z0-9.-]+\.[A-Z|a-z]{2,}\b`
(`main.py` line 76, `email_pattern` of `parse_reference_data`). -/
def emailRE : RE :=
  .seq .wordB (.seq (.repCls emailLocalC 1 none)
    (.seq (.cls (· = '@')) (.seq (.repCls emailDomC 1 none)
      (.seq (.cls (· = '.')) (.seq (.repCls emailTldC 2 none) .wordB)))))

/-- Class `[-.\s]` (phone separators). -/
def phoneSepC (c : Char) : Bool := c = '-' || c = '.' || isSpaceC c

/-- Pattern `(\+?\d{1,3}[-.\s]?)?\(?\d{3}\)?[-.\s]?\d{3}[-.\s]?\d{4}`
(`main.py` line 84, `phone_pattern` of `parse_reference_data`). -/
def phoneParseRE : RE :=
  .seq (.opt (.seq (.opt (.cls (· = '+')))
      (.seq (.repCls isDigitC 1 (some 3)) (.opt (.cls phoneSepC)))))
    (.seq (.opt (.cls (· = '(')))
      (.seq (.repCls isDigitC 3 (some 3))
        (.seq (.opt (.cls (· = ')')))
          (.seq (.opt (.cls phoneSepC))
            (.seq (.repCls isDigitC 3 (some 3))
              (.seq (.opt (.cls phoneSepC)) (.repCls isDigitC 4 (some 4))))))))

/-- Class `[1-9]`. -/
def nonzeroDigitC (c : Char) : Bool := '1' ≤ c && c ≤ '9'

/-- First alternative of the fallback phone pattern
`(\+?61\s?)?\(?0?\)?\s?[1-9]\d{1}\s?\d{3}\s?\d{3}` (`main.py` line 286). -/
def phoneFallbackAlt1 : RE :=
  .seq (.opt (.seq (.opt (.cls (· = '+')))
      (.seq (.cls (· = '6')) (.seq (.cls (· = '1')) (.opt (.cls isSpaceC))))))
    (.seq (.opt (.cls (· = '(')))
      (.seq (.opt (.cls (· = '0')))
        (.seq (.opt (.cls (· = ')')))
          (.seq (.opt (.cls isSpaceC))
            (.seq (.cls nonzeroDigitC)
              (.seq (.cls isDigitC)
                (.seq (.opt (.cls isSpaceC))
                  (.seq (.repCls isDigitC 3 (some 3))
                    (.seq (.opt (.cls isSpaceC)) (.repCls isDigitC 3 (some 3)))))))))))

/-- Second alternative `04\d{2}\s?\d{3}\s?\d{3}` of the fallback phone pattern. -/
def phoneFallbackAlt2 : RE :=
  .seq (.cls (· = '0'))
    (.seq (.cls (· = '4'))
      (.seq (.repCls isDigitC 2 (some 2))
        (.seq (.opt (.cls isSpaceC))
          (.seq (.repCls isDigitC 3 (some 3))
            (.seq (.opt (.cls isSpaceC)) (.repCls isDigitC 3 (some 3)))))))

/-- Fallback extractor phone pattern
`(\+?61\s?)?\(?0?\)?\s?[1-9]\d{1}\s?\d{3}\s?\d{3}|04\d{2}\s?\d{3}\s?\d{3}`
(`main.py` line 286, `phone_pattern` of `process_resume`). -/
def phoneFallbackRE : RE := .alt phoneFallbackAlt1 phoneFallbackAlt2

/-- The phone field of the fallback extraction (`main.py` lines 291, 297):
`phone_match.group(0) if phone_match else ""`. -/
def fallbackPhone (text : Str) : Str :=
  match searchRE phoneFallbackRE none text with
  | some (_, m, _) => m
  | none => []

/-! ## `parse_reference_data` (`main.py` lines 61-165) -/

structure RefRecord where
  name : Str
  email : Str
  phone_number : Str
  company : Str
  relationship : Str
deriving DecidableEq

/-- Relationship keywords of `main.py` line 125. -/
def relKeywords : List Str :=
  ["relationship".toList, "relation".toList, "worked".toList,
   "manager".toList, "supervisor".toList, "colleague".toList]

/-- `any(keyword in part_lower for keyword in [...])`. -/
def hasRelKeyword (partLower : Str) : Bool :=
  relKeywords.any fun k => containsSub k partLower

/-- The loop over `parts[1:]` (`main.py` lines 123-128): a keyword segment
(last wins) becomes `relationship`; otherwise the first remaining segment of
length `> 2` becomes `company` if still unset. -/
def restPartsLoop : List Str → Str → Str → Str × Str
  | [], company, relationship => (company, relationship)
  | part :: rest, company, relationship =>
    if hasRelKeyword (lowerStr part) then
      restPartsLoop rest company (pyStrip part)
    else if company = [] && part.length > 2 then
      restPartsLoop rest (pyStrip part) relationship
    else
      restPartsLoop rest company relationship

/-- Company cleanup of `main.py` lines 112-117: drop words containing `@`
or any digit, rejoin with single spaces, strip. -/
def cleanCompany (company : Str) : Str :=
  pyStrip (joinSpace ((pySplitWs company).filter
    fun w => ¬ (w.contains '@' || w.any Char.isDigit)))

/-- Name cleanup of `main.py` lines 131-133: if the name contains `@`, drop
the whitespace-words containing `@`. -/
def cleanNameAt (name : Str) : Str :=
  if name.contains '@' then
    pyStrip (joinSpace ((pySplitWs name).filter fun w => ¬ w.contains '@'))
  else name

/-- The sentinel name `"Unknown Reference"`. -/
def sentinelName : Str := "Unknown Reference".toList

/-- Default of `main.py` lines 136-137: an empty name becomes the sentinel. -/
def finalizeName (name : Str) : Str :=
  if name = [] then sentinelName else name

/-- Lines 75-81: the first email match (`""` if none) and the text with all
email matches removed and stripped. -/
def stripEmail (t0 : Str) : Str × Str :=
  match searchRE emailRE none t0 with
  | some (_, m, _) => (m, pyStrip (subAllRE emailRE t0))
  | none => ([], t0)

/-- Lines 83-89: the first phone match stripped (`""` if none) and the text
with all phone matches removed and stripped. -/
def stripPhone (t1 : Str) : Str × Str :=
  match searchRE phoneParseRE none t1 with
  | some (_, m, _) => (pyStrip m, pyStrip (subAllRE phoneParseRE t1))
  | none => ([], t1)

/-- Lines 91-99: split on the first present separator of `| , ; -` into
stripped non-empty segments; default to the whole remainder. -/
def splitPartsPy (t2 : Str) : List Str :=
  let parts0 :=
    match (['|', ',', ';', '-'].find? fun sep => t2.contains sep) with
    | some sep => ((splitOnC sep t2).map pyStrip).filter (· ≠ [])
    | none => []
  if parts0 = [] then [t2] else parts0

/-- Lines 101-120: the first segment is the name, or name and cleaned company
when it contains a comma (split on the first comma). -/
def nameCompanyOf (parts : List Str) : Str × Str :=
  let nameCompany := parts.headD []
  if nameCompany.contains ',' then
    (pyStrip (nameCompany.takeWhile (· ≠ ',')),
     cleanCompany (pyStrip ((nameCompany.dropWhile (· ≠ ',')).drop 1)))
  else (nameCompany, [])

/-- `parse_reference_data` (`main.py` lines 61-165), the try-branch, which is
total: extract and remove the first email and phone matches, split the
remainder on the first present separator of `| , ; -`, take name (and company
on an inner comma) from the first segment, fill relationship/company from the
remaining segments, clean `@`-words out of the name, and default an empty
name to the sentinel. -/
def parseReferenceData (input : Str) : RefRecord :=
  let e := stripEmail (pyStrip input)
  let p := stripPhone e.2
  let parts := splitPartsPy p.2
  let nc := nameCompanyOf parts
  let cr := restPartsLoop parts.tail nc.2 []
  ⟨finalizeName (cleanNameAt nc.1), e.1, p.1, cr.1, cr.2⟩

/-- The except-branch of `parse_reference_data` (`main.py` lines 157-165):
the record built when an internal exception is caught, from the value of
`reference_text` at that point. -/
def parseRefOnError (referenceText : Str) : RefRecord :=
  ⟨(if referenceText = [] then sentinelName else referenceText.take 100),
   [], [], [], []⟩

/-! ## `validate_extracted_data` (`main.py` lines 167-216) -/

structure ValidationSummary where
  total_references : Nat
  with_email : Nat
  with_phone : Nat
  missing_info : Nat
deriving DecidableEq

structure ValidationResult where
  validated_references : List RefRecord
  validation_summary : ValidationSummary
deriving DecidableEq

/-- The loop of `main.py` lines 190-202: skip blank lines, parse, skip parsed
entries whose name is empty or the sentinel. -/
def validRefsLoop : List Str → List RefRecord
  | [] => []
  | ref :: rest =>
    if ref = [] ∨ pyStrip ref = [] then validRefsLoop rest
    else
      let p := parseReferenceData ref
      if p.name = [] ∨ p.name = sentinelName then validRefsLoop rest
      else p :: validRefsLoop rest

/-- `validate_extracted_data` (`main.py` lines 167-216) restricted to the
`references` list it reads from the workflow result: empty input short-circuits
to an all-zero summary (lines 178-187); otherwise the validation loop runs and
the summary is computed from the surviving records (lines 204-211). -/
def validateExtractedData (references : List Str) : ValidationResult :=
  if references = [] then
    ⟨[], ⟨0, 0, 0, 0⟩⟩
  else
    let valid := validRefsLoop references
    ⟨valid,
     ⟨valid.length,
      valid.countP (fun r => r.email ≠ []),
      valid.countP (fun r => r.phone_number ≠ []),
      valid.length - valid.countP (fun r => r.email ≠ [] ∨ r.phone_number ≠ [])⟩⟩

/-! ## The merge of `process_resume` (`main.py` lines 302-313)

`ai_result.get(k)` yields `None` when the key is absent (`Option`); Python's
`x or y` yields `x` when `x` is truthy (a non-empty string), else `y`. -/

/-- Python `ai_result.get(k) or fallback_data[k]` (`main.py` lines 307-309). -/
def pyOrStr (ai : Option Str) (fb : Str) : Str :=
  match ai with
  | some v => if v ≠ [] then v else fb
  | none => fb

structure FallbackData where
  name : Str
  email : Str
  phone : Str
deriving DecidableEq

/-- The identity fields the AI result dict may carry (each `.get` is an
`Option` lookup). -/
structure AiFields where
  name : Option Str
  email : Option Str
  phone : Option Str
deriving DecidableEq

/-- The `"final"` merge of `main.py` lines 306-312, identity fields only. -/
def mergeFinal (ai : AiFields) (fb : FallbackData) : FallbackData :=
  ⟨pyOrStr ai.name fb.name, pyOrStr ai.email fb.email, pyOrStr ai.phone fb.phone⟩

/-! ## JSON values (the output domain of `json.loads`) -/

inductive Json where
  | str : String → Json
  | num : Int → Json
  | bool : Bool → Json
  | null : Json
  | arr : List Json → Json
  | obj : List (String × Json) → Json

/-- Python truthiness of a parsed JSON value. -/
def Json.truthy : Json → Bool
  | .str s => s ≠ ""
  | .num n => n ≠ 0
  | .bool b => b
  | .null => false
  | .arr l => ¬ l.isEmpty
  | .obj l => ¬ l.isEmpty

/-- Whether a JSON value is a string. -/
def Json.isStr : Json → Bool
  | .str _ => true
  | _ => false

/-- Python `d.get(k)`: `None` when the key is absent. -/
def dictGet (d : List (String × Json)) (k : String) : Option Json :=
  (d.find? fun p => p.1 = k).map (·.2)

/-- Python `d.get(k, default)`: the default is used only when the key is
absent — a key explicitly bound to `null` is returned as `null`. -/
def dictGetD (d : List (String × Json)) (k : String) (dflt : Json) : Json :=
  (dictGet d k).getD dflt

/-! ## `_extract_references_direct` validation
(`reference_checking_workflow.py` lines 362-379) -/

/-- The cleaned reference record built at lines 370-377: exactly these six
keys, each via `ref.get(key, default)`. -/
def mkCleanRef (ref : List (String × Json)) : List (String × Json) :=
  [("name", dictGetD ref "name" (.str "Unknown")),
   ("email", dictGetD ref "email" (.str "")),
   ("company", dictGetD ref "company" (.str "")),
   ("relationship", dictGetD ref "relationship" (.str "Professional contact")),
   ("years_worked", dictGetD ref "years_worked" (.str "")),
   ("context", dictGetD ref "context" (.str ""))]

/-- The validation loop of lines 367-377: keep a parsed element only if it is
a dict whose `name` value is truthy (`isinstance(ref, dict) and
ref.get("name")`), and rebuild it via `mkCleanRef`. -/
def validAiRefs : List Json → List (List (String × Json))
  | [] => []
  | .obj d :: rest =>
    if (dictGet d "name").elim false Json.truthy then mkCleanRef d :: validAiRefs rest
    else validAiRefs rest
  | _ :: rest => validAiRefs rest

/-- `_extract_references_direct` (lines 320-389): the LLM invocation, the
bracket-span location and `json.loads` are the fallible oracle; any failure
there (including the no-span path of lines 380-385) ends in the `except`
branch or in `return []` — either way an empty list. On success the parsed
array goes through `validAiRefs`. -/
def extractReferencesDirect (llmRefs : Except String (List Json)) :
    List (List (String × Json)) :=
  match llmRefs with
  | .ok refs => validAiRefs refs
  | .error _ => []

/-! ## The LangGraph workflow (`reference_checking_workflow.py`) -/

/-- The applicant-info default dict of lines 311-318 (also lines 171-178). -/
def unknownApplicant : List (String × Json) :=
  [("full_name", .str "Unknown"), ("email", .str "Unknown"),
   ("phone", .str "Unknown"), ("current_position", .str "Unknown"),
   ("experience_years", .str "Unknown"), ("key_skills", .arr [])]

/-- `_extract_applicant_info_direct` (lines 270-318): the LLM call and
JSON-span parse are the fallible oracle; any failure yields the
all-`"Unknown"` default. -/
def extractApplicantInfoDirect (llmApplicant : Except String (List (String × Json))) :
    List (String × Json) :=
  match llmApplicant with
  | .ok d => d
  | .error _ => unknownApplicant

/-- External effects of one workflow run, each fallible exactly where the
source wraps a `try`/`except` around an external call. -/
structure WorkflowOracle where
  download : Except String Str
  split : Str → Except String (List Str)
  llmApplicant : Except String (List (String × Json))
  llmRefs : Except String (List Json)
  timestamp : String
  mkdir : Except String Unit
  questionsDb : Except String (List String)

/-- The `WorkflowState` TypedDict (lines 27-38), plus `resume_chunks` which
the parse node adds at line 146. -/
structure WorkflowState where
  resume_url : String
  role : String
  organization : String
  resume_text : Str
  resume_chunks : List Str
  applicant_info : List (String × Json)
  references : List (List (String × Json))
  questions : List String
  vectorstore_path : String
  error_message : String
  status : String

/-- `_download_resume_node` (lines 93-130): a fetch/parse failure, or extracted
text that strips to empty (line 117-118), sets `status="error"` and an error
message; otherwise the text is stored and `status="downloaded"`. -/
def downloadResumeNode (o : WorkflowOracle) (s : WorkflowState) : WorkflowState :=
  match o.download with
  | .error e =>
    { s with error_message := "Failed to download resume: " ++ e, status := "error" }
  | .ok text =>
    if pyStrip text = [] then
      { s with
        error_message := "Failed to download resume: No text could be extracted from resume",
        status := "error" }
    else { s with resume_text := text, status := "downloaded" }

/-- `_parse_resume_node` (lines 132-154): short-circuits on an error state;
a splitter failure sets `status="error"` (lines 150-153). -/
def parseResumeNode (o : WorkflowOracle) (s : WorkflowState) : WorkflowState :=
  if s.status = "error" then s
  else
    match o.split s.resume_text with
    | .ok chunks => { s with resume_chunks := chunks, status := "parsed" }
    | .error e =>
      { s with error_message := "Failed to parse resume: " ++ e, status := "error" }

/-- `_extract_applicant_node` (lines 156-181): short-circuits on error; the
inner extraction absorbs its own failure (and the node's own `except`
substitutes the same default), so the node always advances. -/
def extractApplicantNode (o : WorkflowOracle) (s : WorkflowState) : WorkflowState :=
  if s.status = "error" then s
  else
    { s with applicant_info := extractApplicantInfoDirect o.llmApplicant,
             status := "applicant_extracted" }

/-- `_extract_references_node` (lines 183-204): short-circuits on error; both
the inner extraction and the node's `except` substitute `[]` and still mark
`references_extracted`. -/
def extractReferencesNode (o : WorkflowOracle) (s : WorkflowState) : WorkflowState :=
  if s.status = "error" then s
  else
    { s with references := extractReferencesDirect o.llmRefs,
             status := "references_extracted" }

/-- `_build_vectorstore_node` (lines 206-229): short-circuits on error; a
directory-creation failure leaves an empty path but still advances. -/
def buildVectorstoreNode (o : WorkflowOracle) (s : WorkflowState) : WorkflowState :=
  if s.status = "error" then s
  else
    match o.mkdir with
    | .ok _ =>
      { s with
        vectorstore_path :=
          "./vectorstore/" ++ s.role ++ "_" ++ s.organization ++ "_" ++ o.timestamp,
        status := "vectorstore_built" }
    | .error _ => { s with vectorstore_path := "", status := "vectorstore_built" }

/-- `_fetch_questions_node` (lines 231-253): short-circuits on error; a lookup
failure substitutes `[]` and still advances. -/
def fetchQuestionsNode (o : WorkflowOracle) (s : WorkflowState) : WorkflowState :=
  if s.status = "error" then s
  else
    match o.questionsDb with
    | .ok qs => { s with questions := qs, status := "questions_fetched" }
    | .error _ => { s with questions := [], status := "questions_fetched" }

/-- `_finalize_node` (lines 255-268): short-circuits on error, else completes. -/
def finalizeNode (s : WorkflowState) : WorkflowState :=
  if s.status = "error" then s else { s with status := "completed" }

/-- The initial state of `run_workflow` (lines 476-487). -/
def initialState (resumeUrl role organization : String) : WorkflowState :=
  { resume_url := resumeUrl, role := role, organization := organization,
    resume_text := [], resume_chunks := [], applicant_info := [],
    references := [], questions := [], vectorstore_path := "",
    error_message := "", status := "initialized" }

/-- `self.workflow.ainvoke`: the linear graph of `_build_workflow`
(lines 64-91), nodes in edge order. -/
def ainvoke (o : WorkflowOracle) (s : WorkflowState) : WorkflowState :=
  finalizeNode (fetchQuestionsNode o (buildVectorstoreNode o
    (extractReferencesNode o (extractApplicantNode o
      (parseResumeNode o (downloadResumeNode o s))))))

/-- The result dict of `run_workflow` (lines 499-506). -/
structure WorkflowResult where
  applicant_info : List (String × Json)
  references : List (List (String × Json))
  questions : List String
  vectorstore_path : String
  status : String
  error_message : String

/-- `run_workflow` (lines 469-525): builds the initial state, runs the graph,
and repackages the six result fields.  The graph embedding is total, so the
outer catch-all of lines 515-525 is unreachable; the re-assignment of an empty
`references` at lines 509-511 is the identity. -/
def runWorkflow (o : WorkflowOracle) (resumeUrl role organization : String) :
    WorkflowResult :=
  let fs := ainvoke o (initialState resumeUrl role organization)
  ⟨fs.applicant_info, fs.references, fs.questions, fs.vectorstore_path,
   fs.status, fs.error_message⟩

/-! ## Document text extractor (`backend/parser.py` lines 21-54) -/

/-- A UTF-8 continuation byte `0x80-0xBF`. -/
def isContB (b : Nat) : Bool := 0x80 ≤ b && b ≤ 0xBF

/-- One UTF-8 decoding step at lead byte `b` with following bytes `rest`:
the decoded character (`none` for an invalid sequence) and the number of
additional bytes consumed beyond `b`.  Invalid bytes following a valid
prefix are left unconsumed for resynchronisation. -/
def utf8Step (b : Nat) (rest : List Nat) : Option Char × Nat :=
  if b < 0x80 then (some (Char.ofNat b), 0)
  else if 0xC2 ≤ b && b ≤ 0xDF then
    match rest with
    | b2 :: _ =>
      if isContB b2 then (some (Char.ofNat ((b - 0xC0) * 64 + (b2 - 0x80))), 1)
      else (none, 0)
    | [] => (none, 0)
  else if 0xE0 ≤ b && b ≤ 0xEF then
    let lo2 := if b = 0xE0 then 0xA0 else 0x80
    let hi2 := if b = 0xED then 0x9F else 0xBF
    match rest with
    | b2 :: b3 :: _ =>
      if lo2 ≤ b2 && b2 ≤ hi2 then
        if isContB b3 then
          (some (Char.ofNat ((b - 0xE0) * 4096 + (b2 - 0x80) * 64 + (b3 - 0x80))), 2)
        else (none, 1)
      else (none, 0)
    | [b2] => if lo2 ≤ b2 && b2 ≤ hi2 then (none, 1) else (none, 0)
    | [] => (none, 0)
  else if 0xF0 ≤ b && b ≤ 0xF4 then
    let lo2 := if b = 0xF0 then 0x90 else 0x80
    let hi2 := if b = 0xF4 then 0x8F else 0xBF
    match rest with
    | b2 :: b3 :: b4 :: _ =>
      if lo2 ≤ b2 && b2 ≤ hi2 then
        if isContB b3 then
          if isContB b4 then
            (some (Char.ofNat ((b - 0xF0) * 262144 + (b2 - 0x80) * 4096 +
              (b3 - 0x80) * 64 + (b4 - 0x80))), 3)
          else (none, 2)
        else (none, 1)
      else (none, 0)
    | [b2, b3] =>
      if lo2 ≤ b2 && b2 ≤ hi2 then (if isContB b3 then (none, 2) else (none, 1))
      else (none, 0)
    | [b2] => if lo2 ≤ b2 && b2 ≤ hi2 then (none, 1) else (none, 0)
    | [] => (none, 0)
  else (none, 0)

/-- Fuelled UTF-8 decoding loop: every step consumes at least the lead byte,
so `fuel = length` always suffices. -/
def decodeUtf8Fuel : Nat → List Nat → List Char
  | 0, _ => []
  | _, [] => []
  | fuel + 1, b :: rest =>
    let step := utf8Step b rest
    let tail := decodeUtf8Fuel fuel (rest.drop step.2)
    match step.1 with
    | some c => c :: tail
    | none => tail

/-- Python `str(bytes, 'utf-8', errors='ignore')`: standard UTF-8 decoding,
skipping every byte that is not part of a valid sequence (CPython's maximal
subpart error ranges consist of such bytes, so byte-at-a-time resynchronisation
produces the same output). -/
def decodeUtf8Ignore (l : List Nat) : List Char := decodeUtf8Fuel l.length l

/-- The PDF/DOCX library calls, abstracted: on success a list of per-page
(or per-paragraph) text segments, on failure the caught exception text. -/
structure DocOracle where
  pdfPages : Except String (List Str)
  docxParas : Except String (List Str)

/-- Page/paragraph accumulation `text += segment + "\n"` of
`backend/parser.py` lines 26-28 and 39-41, followed by `.strip()`. -/
def joinSegmentsNl (segs : List Str) : Str :=
  pyStrip (segs.flatMap fun s => s ++ ['\n'])

/-- `extract_text_from_pdf` (`backend/parser.py` lines 21-32): any failure in
the library calls is caught and yields the empty string. -/
def extractTextFromPdf (o : DocOracle) : Str :=
  match o.pdfPages with
  | .ok pages => joinSegmentsNl pages
  | .error _ => []

/-- `extract_text_from_docx` (`backend/parser.py` lines 34-44). -/
def extractTextFromDocx (o : DocOracle) : Str :=
  match o.docxParas with
  | .ok paras => joinSegmentsNl paras
  | .error _ => []

/-- `extract_text_from_file` (`backend/parser.py` lines 47-54): dispatch on
the lower-cased extension; anything other than `.pdf`/`.docx`/`.doc` is the
lossy UTF-8 decode of the raw bytes. -/
def extractTextFromFile (o : DocOracle) (content : List Nat) (fileExtension : Str) : Str :=
  if lowerStr fileExtension = ".pdf".toList then extractTextFromPdf o
  else if lowerStr fileExtension = ".docx".toList ∨ lowerStr fileExtension = ".doc".toList then
    extractTextFromDocx o
  else decodeUtf8Ignore content

/-! ## Concrete oracle instantiations used as test vectors -/

/-- A run whose resume download succeeds but whose text splitter raises. -/
def oracleParseFail : WorkflowOracle :=
  { download := .ok "resume text".toList,
    split := fun _ => .error "splitter failure",
    llmApplicant := .error "llm down", llmRefs := .error "llm down",
    timestamp := "ts", mkdir := .error "disk full", questionsDb := .error "db down" }

/-- A run whose document fetch fails. -/
def oracleDownloadFail : WorkflowOracle :=
  { download := .error "connection refused",
    split := fun t => .ok [t],
    llmApplicant := .ok [("full_name", .str "A")], llmRefs := .ok [],
    timestamp := "ts", mkdir := .ok (), questionsDb := .ok ["q1"] }

/-- A run whose fetch and split succeed but whose LLM calls fail. -/
def oracleLlmFail : WorkflowOracle :=
  { download := .ok "resume text".toList,
    split := fun t => .ok [t],
    llmApplicant := .error "llm down", llmRefs := .error "llm down",
    timestamp := "ts", mkdir := .error "disk full", questionsDb := .error "db down" }

/-! ## Digit counting for the year-range property (C7) -/

/-- Number of decimal digits in a string. -/
def digitCount (l : Str) : Nat := l.countP (fun c => c.isDigit)

/-- The characters any match of the fallback phone pattern can consume:
digits, `+`, parentheses and whitespace.  A hyphen is not among them. -/
def allowedPhoneC (c : Char) : Bool :=
  c.isDigit || c = '+' || c = '(' || c = ')' || isSpaceC c

/-- Every match of `r` consumes only fallback-phone characters and at least
`k` digits. -/
def ConsumesPhone (r : RE) (k : Nat) : Prop :=
  ∀ (p : Option Char) (l m rest : Str), (m, rest) ∈ matchRE r p l →
    (∀ c ∈ m, allowedPhoneC c = true) ∧ k ≤ digitCount m

/-! # Theorems -/

/-! ## Helper lemmas -/

theorem finalizeName_ne_nil (n : Str) : finalizeName n ≠ [] := by
  unfold finalizeName
  split
  · decide
  · assumption

theorem pyOrStr_eq (o : Option Str) (fb : Str) :
    pyOrStr o fb = if o.getD [] = [] then fb else o.getD [] := by
  cases o with
  | none => simp [pyOrStr]
  | some v =>
    by_cases h : v = [] <;> simp [pyOrStr, h]

/-! ## C1 -/

/-- C1 counterexample: the merge of `process_resume` is Python `or`, which
only tests truthiness; an AI value equal to the sentinel `"Unknown"` is kept,
not replaced by the fallback value `"X"` as the claim requires. -/
theorem C1_counterexample :
    (mergeFinal ⟨some "Unknown".toList, none, none⟩
        ⟨"X".toList, [], []⟩).name = "Unknown".toList ∧
    "Unknown".toList ≠ "X".toList := by
  constructor
  · rfl
  · decide

/-- C1 amended: for each identity field (name, email, phone) the merged final
value equals the AI-extractor value whenever that value is present and
non-empty — including when it equals the sentinel `"Unknown"` — and otherwise
equals the fallback-extractor value; in particular AI `name=""` with fallback
`name="John Smith"` merges to `"John Smith"` and AI `name="Jane Doe"` with
fallback `name="X"` merges to `"Jane Doe"`. -/
theorem C1_merge_amended :
    (∀ (ai : AiFields) (fb : FallbackData),
      (mergeFinal ai fb).name =
        (if ai.name.getD [] = [] then fb.name else ai.name.getD []) ∧
      (mergeFinal ai fb).email =
        (if ai.email.getD [] = [] then fb.email else ai.email.getD []) ∧
      (mergeFinal ai fb).phone =
        (if ai.phone.getD [] = [] then fb.phone else ai.phone.getD [])) ∧
    (mergeFinal ⟨some [], none, none⟩
      ⟨"John Smith".toList, [], []⟩).name = "John Smith".toList ∧
    (mergeFinal ⟨some "Jane Doe".toList, none, none⟩
      ⟨"X".toList, [], []⟩).name = "Jane Doe".toList := by
  refine ⟨fun ai fb => ⟨?_, ?_, ?_⟩, rfl, rfl⟩ <;>
    simp only [mergeFinal, pyOrStr_eq]

/-! ## C6 -/

set_option maxHeartbeats 4000000 in
/-- C6: parsing the line `"Jane Doe, Acme Corp, jane@acme.com, 555-123-4567"`
with `parse_reference_data` yields exactly name `"Jane Doe"`, company
`"Acme Corp"`, email `"jane@acme.com"`, phone_number `"555-123-4567"`
(and an empty relationship). -/
theorem C6_parse_reference_example :
    parseReferenceData "Jane Doe, Acme Corp, jane@acme.com, 555-123-4567".toList =
      ⟨"Jane Doe".toList, "jane@acme.com".toList, "555-123-4567".toList,
       "Acme Corp".toList, []⟩ := by
  decide

/-! ## C8 -/

/-- C8: the reference string parser is a total function (its embedding of the
try-branch never fails), the returned name is never empty (an empty parse
result is replaced by the sentinel `"Unknown Reference"` before returning),
and the except-branch record has name equal to the first 100 characters of
the text being parsed (or the sentinel when it is empty) with all other
fields empty. -/
theorem C8_parser_never_raises :
    (∀ s : Str, (parseReferenceData s).name ≠ []) ∧
    (∀ s : Str,
      (parseRefOnError s).name ≠ [] ∧
      (parseRefOnError s).email = [] ∧
      (parseRefOnError s).phone_number = [] ∧
      (parseRefOnError s).company = [] ∧
      (parseRefOnError s).relationship = [] ∧
      (s = [] → (parseRefOnError s).name = sentinelName) ∧
      (s ≠ [] → (parseRefOnError s).name = s.take 100)) := by
  constructor
  · intro s
    simp only [parseReferenceData]
    exact finalizeName_ne_nil _
  · intro s
    refine ⟨?_, rfl, rfl, rfl, rfl, ?_, ?_⟩
    · by_cases h : s = []
      · simp [parseRefOnError, h]
        decide
      · simp only [parseRefOnError, if_neg h]
        intro habs
        have hlen := congrArg List.length habs
        simp only [List.length_take, List.length_nil] at hlen
        have : s.length = 0 := by omega
        exact h (List.length_eq_zero.mp this)
    · intro h; simp [parseRefOnError, h]
    · intro h; simp [parseRefOnError, h]

/-! ## C5 -/

theorem pyStrip_nil : pyStrip [] = [] := rfl

theorem validRefsLoop_eq (refs : List Str) :
    validRefsLoop refs =
      ((refs.filter fun r => ¬ pyStrip r = []).map parseReferenceData).filter
        (fun p => ¬(p.name = [] ∨ p.name = sentinelName)) := by
  induction refs with
  | nil => rfl
  | cons r rest ih =>
    by_cases hb : pyStrip r = []
    · simp [validRefsLoop, hb, ih]
    · have hr : ¬ r = [] := fun h => hb (h ▸ pyStrip_nil)
      by_cases hn : (parseReferenceData r).name = [] ∨
          (parseReferenceData r).name = sentinelName
      · rcases hn with hn | hn
        · simp [validRefsLoop, hb, hr, hn, ih]
        · simp [validRefsLoop, hb, hr, hn, ih]
      · push_neg at hn
        simp [validRefsLoop, hb, hr, hn.1, hn.2, ih]

/-- C5: the validation pass keeps exactly the parse results of the non-blank
input lines whose name is neither empty nor the sentinel
`"Unknown Reference"`; the summary satisfies
`total_references = len(validated_references)`, `with_email`/`with_phone`
count surviving entries with a non-empty email/phone_number,
`missing_info = total_references - count(entries with email or phone)`; and
an empty input is not an error: it yields an empty validated list with the
all-zero summary. -/
theorem C5_validate_extracted_data :
    ∀ refs : List Str,
      (validateExtractedData refs).validated_references =
        ((refs.filter fun r => ¬ pyStrip r = []).map parseReferenceData).filter
          (fun p => ¬(p.name = [] ∨ p.name = sentinelName)) ∧
      (validateExtractedData refs).validation_summary.total_references =
        (validateExtractedData refs).validated_references.length ∧
      (validateExtractedData refs).validation_summary.with_email =
        (validateExtractedData refs).validated_references.countP
          (fun r => r.email ≠ []) ∧
      (validateExtractedData refs).validation_summary.with_phone =
        (validateExtractedData refs).validated_references.countP
          (fun r => r.phone_number ≠ []) ∧
      (validateExtractedData refs).validation_summary.missing_info =
        (validateExtractedData refs).validated_references.length -
          (validateExtractedData refs).validated_references.countP
            (fun r => r.email ≠ [] ∨ r.phone_number ≠ []) ∧
      validateExtractedData [] = ⟨[], ⟨0, 0, 0, 0⟩⟩ := by
  intro refs
  by_cases h : refs = []
  · subst h
    refine ⟨?_, ?_, ?_, ?_, ?_, ?_⟩ <;> rfl
  · simp only [validateExtractedData, if_neg h]
    refine ⟨validRefsLoop_eq refs, ?_, ?_, ?_, ?_, ?_⟩ <;> trivial

/-! ## Workflow run lemmas (shared by C2, C3, C4) -/

theorem strAppend_ne_empty (a b : String) (h : a ≠ "") : a ++ b ≠ "" := by
  intro hh
  have h2 := congrArg String.data hh
  rw [String.congr_append] at h2
  simp only [String.data] at h2
  rcases List.append_eq_nil.mp h2 with ⟨ha, _⟩
  apply h
  cases a
  simp_all

theorem run_download_error (o : WorkflowOracle) (u r g e : String)
    (h : o.download = .error e) :
    runWorkflow o u r g =
      ⟨[], [], [], "", "error", "Failed to download resume: " ++ e⟩ := by
  simp [runWorkflow, ainvoke, initialState, downloadResumeNode, h, parseResumeNode,
    extractApplicantNode, extractReferencesNode, buildVectorstoreNode,
    fetchQuestionsNode, finalizeNode]

theorem run_download_empty (o : WorkflowOracle) (u r g : String) (t : Str)
    (h : o.download = .ok t) (h2 : pyStrip t = []) :
    runWorkflow o u r g =
      ⟨[], [], [], "", "error",
       "Failed to download resume: No text could be extracted from resume"⟩ := by
  simp [runWorkflow, ainvoke, initialState, downloadResumeNode, h, h2, parseResumeNode,
    extractApplicantNode, extractReferencesNode, buildVectorstoreNode,
    fetchQuestionsNode, finalizeNode]

theorem run_split_error (o : WorkflowOracle) (u r g : String) (t : Str) (e : String)
    (h : o.download = .ok t) (h2 : pyStrip t ≠ []) (h3 : o.split t = .error e) :
    runWorkflow o u r g =
      ⟨[], [], [], "", "error", "Failed to parse resume: " ++ e⟩ := by
  simp [runWorkflow, ainvoke, initialState, downloadResumeNode, h, h2, parseResumeNode, h3,
    extractApplicantNode, extractReferencesNode, buildVectorstoreNode,
    fetchQuestionsNode, finalizeNode]

theorem run_split_ok (o : WorkflowOracle) (u r g : String) (t : Str) (chunks : List Str)
    (h : o.download = .ok t) (h2 : pyStrip t ≠ []) (h3 : o.split t = .ok chunks) :
    runWorkflow o u r g =
      ⟨extractApplicantInfoDirect o.llmApplicant,
       extractReferencesDirect o.llmRefs,
       (match o.questionsDb with | .ok qs => qs | .error _ => []),
       (match o.mkdir with
        | .ok _ => "./vectorstore/" ++ r ++ "_" ++ g ++ "_" ++ o.timestamp
        | .error _ => ""),
       "completed", ""⟩ := by
  cases hm : o.mkdir <;> cases hq : o.questionsDb <;>
    simp [runWorkflow, ainvoke, initialState, downloadResumeNode, h, h2, parseResumeNode, h3,
      extractApplicantNode, extractReferencesNode, buildVectorstoreNode,
      fetchQuestionsNode, finalizeNode, hm, hq]

/-! ## C10 -/

theorem dictGet_mkCleanRef (d : List (String × Json)) :
    dictGet (mkCleanRef d) "name" = some (dictGetD d "name" (.str "Unknown")) ∧
    dictGet (mkCleanRef d) "email" = some (dictGetD d "email" (.str "")) ∧
    dictGet (mkCleanRef d) "company" = some (dictGetD d "company" (.str "")) ∧
    dictGet (mkCleanRef d) "relationship" =
      some (dictGetD d "relationship" (.str "Professional contact")) ∧
    dictGet (mkCleanRef d) "years_worked" = some (dictGetD d "years_worked" (.str "")) ∧
    dictGet (mkCleanRef d) "context" = some (dictGetD d "context" (.str "")) :=
  ⟨rfl, rfl, rfl, rfl, rfl, rfl⟩

/-- C10 counterexample: the record built from the model output
`[{"name": "Dr. Smith", "email": null}]` carries `email = null`, not a
string — `dict.get(key, default)` substitutes the default only when the key
is absent, so an explicit JSON `null` passes through unchanged. -/
theorem C10_counterexample :
    (validAiRefs [Json.obj [("name", Json.str "Dr. Smith"), ("email", Json.null)]]).map
      (fun rec => (dictGet rec "email").map Json.isStr) = [some false] := by
  rfl

/-- C10 amended: every record produced by the AI reference extraction has a
truthy `name` value (non-empty whenever it is a string), is built from an
input object by `mkCleanRef` with exactly the six keys name, email, company,
relationship, years_worked, context — hence never contains a `phone_number`
key — and each of the five non-name fields receives its documented string
default `""`/`""`/`"Professional contact"`/`""`/`""` exactly when the model
omitted that key (an explicitly supplied value, string or not, passes
through unchanged). -/
theorem C10_ai_reference_records :
    ∀ (refs : List Json) (rec : List (String × Json)),
      rec ∈ validAiRefs refs →
      rec.map Prod.fst =
        ["name", "email", "company", "relationship", "years_worked", "context"] ∧
      dictGet rec "phone_number" = none ∧
      (∃ v, dictGet rec "name" = some v ∧ v.truthy = true) ∧
      ∃ d, Json.obj d ∈ refs ∧ rec = mkCleanRef d ∧
        (dictGet d "email" = none → dictGet rec "email" = some (.str "")) ∧
        (dictGet d "company" = none → dictGet rec "company" = some (.str "")) ∧
        (dictGet d "relationship" = none →
          dictGet rec "relationship" = some (.str "Professional contact")) ∧
        (dictGet d "years_worked" = none → dictGet rec "years_worked" = some (.str "")) ∧
        (dictGet d "context" = none → dictGet rec "context" = some (.str "")) := by
  intro refs
  induction refs with
  | nil => intro rec h; simp [validAiRefs] at h
  | cons r rest ih =>
    intro rec hrec
    cases r with
    | obj d =>
      by_cases hname : ((dictGet d "name").elim false Json.truthy : Bool) = true
      · simp only [validAiRefs, hname, if_true, List.mem_cons] at hrec
        rcases hrec with hrec | hrec
        · subst hrec
          refine ⟨rfl, rfl, ?_, d, .head _, rfl, ?_, ?_, ?_, ?_, ?_⟩
          · cases hv : dictGet d "name" with
            | none => rw [hv] at hname; simp at hname
            | some v =>
              rw [hv] at hname
              simp only [Option.elim] at hname
              refine ⟨v, ?_, hname⟩
              rw [(dictGet_mkCleanRef d).1]
              simp [dictGetD, hv]
          · intro hv
            rw [(dictGet_mkCleanRef d).2.1]
            simp [dictGetD, hv]
          · intro hv
            rw [(dictGet_mkCleanRef d).2.2.1]
            simp [dictGetD, hv]
          · intro hv
            rw [(dictGet_mkCleanRef d).2.2.2.1]
            simp [dictGetD, hv]
          · intro hv
            rw [(dictGet_mkCleanRef d).2.2.2.2.1]
            simp [dictGetD, hv]
          · intro hv
            rw [(dictGet_mkCleanRef d).2.2.2.2.2]
            simp [dictGetD, hv]
        · rcases ih rec hrec with ⟨hk, hp, hn, d', hd, hrest⟩
          exact ⟨hk, hp, hn, d', List.mem_cons_of_mem _ hd, hrest⟩
      · simp only [validAiRefs, hname, if_false] at hrec
        rcases ih rec hrec with ⟨hk, hp, hn, d', hd, hrest⟩
        exact ⟨hk, hp, hn, d', List.mem_cons_of_mem _ hd, hrest⟩
    | str v =>
      simp only [validAiRefs] at hrec
      rcases ih rec hrec with ⟨hk, hp, hn, d', hd, hrest⟩
      exact ⟨hk, hp, hn, d', List.mem_cons_of_mem _ hd, hrest⟩
    | num v =>
      simp only [validAiRefs] at hrec
      rcases ih rec hrec with ⟨hk, hp, hn, d', hd, hrest⟩
      exact ⟨hk, hp, hn, d', List.mem_cons_of_mem _ hd, hrest⟩
    | bool v =>
      simp only [validAiRefs] at hrec
      rcases ih rec hrec with ⟨hk, hp, hn, d', hd, hrest⟩
      exact ⟨hk, hp, hn, d', List.mem_cons_of_mem _ hd, hrest⟩
    | null =>
      simp only [validAiRefs] at hrec
      rcases ih rec hrec with ⟨hk, hp, hn, d', hd, hrest⟩
      exact ⟨hk, hp, hn, d', List.mem_cons_of_mem _ hd, hrest⟩
    | arr v =>
      simp only [validAiRefs] at hrec
      rcases ih rec hrec with ⟨hk, hp, hn, d', hd, hrest⟩
      exact ⟨hk, hp, hn, d', List.mem_cons_of_mem _ hd, hrest⟩

/-- C10 witness: the amended theorem applied to a concrete model output with
an omitted email and relationship. -/
theorem C10_ai_reference_records_witness :
    (mkCleanRef [("name", Json.str "Ann")]).map Prod.fst =
      ["name", "email", "company", "relationship", "years_worked", "context"] ∧
    dictGet (mkCleanRef [("name", Json.str "Ann")]) "phone_number" = none := by
  have h := C10_ai_reference_records [Json.obj [("name", Json.str "Ann")]]
    (mkCleanRef [("name", Json.str "Ann")]) (List.Mem.head _)
  exact ⟨h.1, h.2.1⟩

/-! ## C9 -/

/-- C9: the document text extractor is total (its embedding returns a string
for every byte buffer, extension and library behaviour): an extension whose
lower-casing is none of `.pdf`/`.docx`/`.doc` yields the bytes decoded as
UTF-8 with invalid sequences dropped, and a PDF (resp. DOCX/DOC) buffer on
which the library raises yields the empty string. -/
theorem C9_extract_text_total :
    ∀ (o : DocOracle) (content : List Nat) (ext : Str),
      (lowerStr ext ≠ ".pdf".toList → lowerStr ext ≠ ".docx".toList →
        lowerStr ext ≠ ".doc".toList →
        extractTextFromFile o content ext = decodeUtf8Ignore content) ∧
      (∀ e, lowerStr ext = ".pdf".toList → o.pdfPages = .error e →
        extractTextFromFile o content ext = []) ∧
      (∀ e, lowerStr ext = ".docx".toList ∨ lowerStr ext = ".doc".toList →
        o.docxParas = .error e → extractTextFromFile o content ext = []) := by
  intro o content ext
  refine ⟨?_, ?_, ?_⟩
  · intro h1 h2 h3
    have h4 : ¬(lowerStr ext = ".docx".toList ∨ lowerStr ext = ".doc".toList) := by
      rintro (h | h)
      · exact h2 h
      · exact h3 h
    simp only [extractTextFromFile, if_neg h1, if_neg h4]
  · intro e h1 herr
    simp [extractTextFromFile, h1, extractTextFromPdf, herr]
  · intro e h1 herr
    rcases h1 with h1 | h1
    · have hne : lowerStr ext ≠ ".pdf".toList := by rw [h1]; decide
      simp [extractTextFromFile, h1, hne, extractTextFromDocx, herr]
    · have hne : lowerStr ext ≠ ".pdf".toList := by rw [h1]; decide
      simp [extractTextFromFile, h1, hne, extractTextFromDocx, herr]

/-- C9 witness: a `.TXT` extension decodes the bytes `"Hi"` lossily, and a
`.PDF` whose library fails yields the empty string. -/
theorem C9_extract_text_total_witness :
    extractTextFromFile ⟨.error "bad pdf", .error "bad docx"⟩ [72, 105] ".TXT".toList =
      "Hi".toList ∧
    extractTextFromFile ⟨.error "bad pdf", .error "bad docx"⟩ [72, 105] ".PDF".toList =
      [] := by
  constructor
  · have h := (C9_extract_text_total ⟨.error "bad pdf", .error "bad docx"⟩
      [72, 105] ".TXT".toList).1 (by decide) (by decide) (by decide)
    rw [h]; rfl
  · exact (C9_extract_text_total ⟨.error "bad pdf", .error "bad docx"⟩
      [72, 105] ".PDF".toList).2.1 "bad pdf" (by decide) rfl

/-! ## C2 -/

/-- C2 counterexample: a run whose download succeeds (with non-blank text)
but whose parse stage (text splitter) fails ends with `status = "error"` and
a populated `error_message` — `_parse_resume_node`'s `except` sets the error
state (lines 150-153), so a parse failure is not absorbed as the claim
requires. -/
theorem C2_counterexample :
    (runWorkflow oracleParseFail "url" "role" "org").status = "error" ∧
    (runWorkflow oracleParseFail "url" "role" "org").error_message =
      "Failed to parse resume: splitter failure" := by
  have h := run_split_error oracleParseFail "url" "role" "org" "resume text".toList
    "splitter failure" rfl (by decide) rfl
  rw [h]
  exact ⟨rfl, rfl⟩

/-- C2 amended: a failure in the download stage sets `status = "error"` and
populates `error_message`, and so does a failure in the parse stage (text
splitter); a failure inside any of the four later stages (`extract_applicant`, `extract_references`,
`build_vectorstore`, `fetch_questions`) is caught inside that stage, the
stage's documented default output is substituted (`unknownApplicant` dict /
`[]` references / `""` path / `[]` questions), and the run advances to the
non-error terminal status `"completed"`. -/
theorem C2_failure_containment_amended :
    (∀ (o : WorkflowOracle) (u r g e : String), o.download = .error e →
      (runWorkflow o u r g).status = "error" ∧
      (runWorkflow o u r g).error_message ≠ "") ∧
    (∀ (o : WorkflowOracle) (u r g : String) (t : Str) (e : String),
      o.download = .ok t → pyStrip t ≠ [] → o.split t = .error e →
      (runWorkflow o u r g).status = "error" ∧
      (runWorkflow o u r g).error_message ≠ "") ∧
    (∀ (o : WorkflowOracle) (u r g : String) (t : Str) (chunks : List Str),
      o.download = .ok t → pyStrip t ≠ [] → o.split t = .ok chunks →
      (runWorkflow o u r g).status = "completed" ∧
      (runWorkflow o u r g).error_message = "" ∧
      (∀ e, o.llmApplicant = .error e →
        (runWorkflow o u r g).applicant_info = unknownApplicant) ∧
      (∀ e, o.llmRefs = .error e → (runWorkflow o u r g).references = []) ∧
      (∀ e, o.mkdir = .error e → (runWorkflow o u r g).vectorstore_path = "") ∧
      (∀ e, o.questionsDb = .error e → (runWorkflow o u r g).questions = [])) := by
  refine ⟨?_, ?_, ?_⟩
  · intro o u r g e h
    rw [run_download_error o u r g e h]
    exact ⟨rfl, strAppend_ne_empty _ _ (by decide)⟩
  · intro o u r g t e h h2 h3
    rw [run_split_error o u r g t e h h2 h3]
    exact ⟨rfl, strAppend_ne_empty _ _ (by decide)⟩
  · intro o u r g t chunks h h2 h3
    rw [run_split_ok o u r g t chunks h h2 h3]
    refine ⟨rfl, rfl, ?_, ?_, ?_, ?_⟩
    · intro e he; simp [extractApplicantInfoDirect, he]
    · intro e he; simp [extractReferencesDirect, he]
    · intro e he; simp [he]
    · intro e he; simp [he]

/-- C2 witness: the amended theorem applied to a concrete failing-splitter
run and a concrete run in which every post-parse stage fails. -/
theorem C2_failure_containment_amended_witness :
    (runWorkflow oracleDownloadFail "url" "role" "org").status = "error" ∧
    (runWorkflow oracleParseFail "url" "role" "org").status = "error" ∧
    (runWorkflow oracleLlmFail "url" "role" "org").status = "completed" ∧
    (runWorkflow oracleLlmFail "url" "role" "org").references = [] ∧
    (runWorkflow oracleLlmFail "url" "role" "org").questions = [] := by
  have h0 := (C2_failure_containment_amended.1 oracleDownloadFail "url" "role" "org"
    "connection refused" rfl).1
  have h1 := (C2_failure_containment_amended.2.1 oracleParseFail "url" "role" "org"
    "resume text".toList "splitter failure" rfl (by decide) rfl).1
  have h2 := C2_failure_containment_amended.2.2 oracleLlmFail "url" "role" "org"
    "resume text".toList ["resume text".toList] rfl (by decide) rfl
  exact ⟨h0, h1, h2.1, h2.2.2.2.1 "llm down" rfl, h2.2.2.2.2.2 "db down" rfl⟩

/-! ## C3 -/

/-- C3: a run whose document fetch fails terminates with `status = "error"`,
empty references and questions, and a non-empty error message; a run whose
fetch and split succeed but whose LLM reference-extraction call fails still
terminates with the non-error status `"completed"` (later than
`"downloaded"`), empty references, and an **empty** error message. -/
theorem C3_fetch_fatal_llm_absorbed :
    (∀ (o : WorkflowOracle) (u r g e : String), o.download = .error e →
      (runWorkflow o u r g).status = "error" ∧
      (runWorkflow o u r g).references = [] ∧
      (runWorkflow o u r g).questions = [] ∧
      (runWorkflow o u r g).error_message ≠ "") ∧
    (∀ (o : WorkflowOracle) (u r g : String) (t : Str) (chunks : List Str) (e : String),
      o.download = .ok t → pyStrip t ≠ [] → o.split t = .ok chunks →
      o.llmRefs = .error e →
      (runWorkflow o u r g).status = "completed" ∧
      (runWorkflow o u r g).status ≠ "error" ∧
      (runWorkflow o u r g).references = [] ∧
      (runWorkflow o u r g).error_message = "") := by
  constructor
  · intro o u r g e h
    rw [run_download_error o u r g e h]
    exact ⟨rfl, rfl, rfl, strAppend_ne_empty _ _ (by decide)⟩
  · intro o u r g t chunks e h h2 h3 he
    rw [run_split_ok o u r g t chunks h h2 h3]
    refine ⟨rfl, show ("completed" : String) ≠ "error" by decide, ?_, rfl⟩
    simp [extractReferencesDirect, he]

/-- C3 witness: the theorem applied to a concrete failed fetch and to a
concrete run with a failing LLM call. -/
theorem C3_fetch_fatal_llm_absorbed_witness :
    (runWorkflow oracleDownloadFail "url" "role" "org").status = "error" ∧
    (runWorkflow oracleDownloadFail "url" "role" "org").references = [] ∧
    (runWorkflow oracleLlmFail "url" "role" "org").references = [] ∧
    (runWorkflow oracleLlmFail "url" "role" "org").error_message = "" := by
  have h1 := C3_fetch_fatal_llm_absorbed.1 oracleDownloadFail "url" "role" "org"
    "connection refused" rfl
  have h2 := C3_fetch_fatal_llm_absorbed.2 oracleLlmFail "url" "role" "org"
    "resume text".toList ["resume text".toList] "llm down" rfl (by decide) rfl rfl
  exact ⟨h1.1, h1.2.1, h2.2.2.1, h2.2.2.2⟩

/-! ## C4 -/

/-- C4: the pipeline entry point never raises — its embedding is a total
function of the oracle behaviours (including oracles making every stage
fail) — and always returns a record with exactly the six fields
applicant_info, references, questions, vectorstore_path, status,
error_message, in which references and questions are lists by type; moreover
the run ends either completed with an empty error message or in the error
status with a non-empty one. -/
theorem C4_run_workflow_always_returns :
    ∀ (o : WorkflowOracle) (u r g : String),
      (∃ ai refs qs vp st em, runWorkflow o u r g =
        WorkflowResult.mk ai refs qs vp st em) ∧
      ((runWorkflow o u r g).status = "completed" ∧
        (runWorkflow o u r g).error_message = "" ∨
       (runWorkflow o u r g).status = "error" ∧
        (runWorkflow o u r g).error_message ≠ "") := by
  intro o u r g
  refine ⟨⟨_, _, _, _, _, _, rfl⟩, ?_⟩
  cases hd : o.download with
  | error e =>
    rw [run_download_error o u r g e hd]
    exact Or.inr ⟨rfl, strAppend_ne_empty _ _ (by decide)⟩
  | ok t =>
    by_cases h2 : pyStrip t = []
    · rw [run_download_empty o u r g t hd h2]
      exact Or.inr ⟨rfl, by decide⟩
    · cases hs : o.split t with
      | error e =>
        rw [run_split_error o u r g t e hd h2 hs]
        exact Or.inr ⟨rfl, strAppend_ne_empty _ _ (by decide)⟩
      | ok chunks =>
        rw [run_split_ok o u r g t chunks hd h2 hs]
        exact Or.inl ⟨rfl, rfl⟩

/-! ## C8 witness -/

/-- C8 witness: the parser theorem applied at concrete inputs, with the
empty-input and non-empty-input hypotheses of the error-path clause
discharged concretely. -/
theorem C8_parser_never_raises_witness :
    (parseReferenceData "Jane Doe".toList).name ≠ [] ∧
    (parseRefOnError []).name = sentinelName ∧
    (parseRefOnError "abc".toList).name = "abc".toList.take 100 :=
  ⟨C8_parser_never_raises.1 "Jane Doe".toList,
   (C8_parser_never_raises.2 []).2.2.2.2.2.1 rfl,
   (C8_parser_never_raises.2 "abc".toList).2.2.2.2.2.2 (by decide)⟩

/-! ## C7: matcher lemmas -/

theorem mem_matchRE_append :
    ∀ (r : RE) (p : Option Char) (l m rest : Str),
      (m, rest) ∈ matchRE r p l → m ++ rest = l := by
  intro r
  induction r with
  | eps =>
    intro p l m rest h
    simp only [matchRE, List.mem_singleton, Prod.mk.injEq] at h
    rw [h.1, h.2, List.nil_append]
  | cls q =>
    intro p l m rest h
    cases l with
    | nil => simp [matchRE] at h
    | cons c cs =>
      simp only [matchRE] at h
      split at h
      · simp only [List.mem_singleton, Prod.mk.injEq] at h
        rw [h.1, h.2]
        rfl
      · simp at h
  | seq a b iha ihb =>
    intro p l m rest h
    simp only [matchRE, List.mem_flatMap, List.mem_map] at h
    obtain ⟨⟨x1, x2⟩, hx, ⟨y1, y2⟩, hy, heq⟩ := h
    obtain ⟨h1, h2⟩ := Prod.mk.injEq .. |>.mp heq
    subst h1; subst h2
    have e1 := iha p l x1 x2 hx
    have e2 := ihb _ x2 y1 y2 hy
    rw [List.append_assoc, e2, e1]
  | alt a b iha ihb =>
    intro p l m rest h
    rcases List.mem_append.mp h with h | h
    · exact iha p l m rest h
    · exact ihb p l m rest h
  | opt a iha =>
    intro p l m rest h
    rcases List.mem_append.mp h with h | h
    · exact iha p l m rest h
    · simp only [List.mem_singleton, Prod.mk.injEq] at h
      rw [h.1, h.2, List.nil_append]
  | repCls q lo hi =>
    intro p l m rest h
    simp only [matchRE, List.mem_map, List.mem_range] at h
    obtain ⟨i, _, heq⟩ := h
    obtain ⟨h1, h2⟩ := Prod.mk.injEq .. |>.mp heq
    subst h1; subst h2
    exact List.take_append_drop _ l
  | wordB =>
    intro p l m rest h
    simp only [matchRE] at h
    split at h
    · simp only [List.mem_singleton, Prod.mk.injEq] at h
      rw [h.1, h.2, List.nil_append]
    · simp at h

theorem take_all_of_le_takeWhile (q : Char → Bool) :
    ∀ (l : Str) (n : Nat), n ≤ (l.takeWhile q).length →
      ∀ c ∈ l.take n, q c = true := by
  intro l
  induction l with
  | nil => intro n _ c hc; simp at hc
  | cons x xs ih =>
    intro n hn c hc
    cases n with
    | zero => simp at hc
    | succ k =>
      by_cases hq : q x
      · rw [List.takeWhile_cons_of_pos hq] at hn
        simp only [List.length_cons, Nat.succ_le_succ_iff] at hn
        rcases List.mem_cons.mp (by simpa using hc) with hc1 | hc1
        · rw [hc1]; exact hq
        · exact ih k hn c hc1
      · rw [List.takeWhile_cons_of_neg hq] at hn
        simp at hn
  
theorem digitCount_append (a b : Str) :
    digitCount (a ++ b) = digitCount a + digitCount b :=
  List.countP_append _ _ _

theorem consumes_cls_allowed (q : Char → Bool)
    (hq : ∀ c, q c = true → allowedPhoneC c = true) :
    ConsumesPhone (.cls q) 0 := by
  intro p l m rest h
  cases l with
  | nil => simp [matchRE] at h
  | cons c cs =>
    simp only [matchRE] at h
    split at h
    next hqc =>
      simp only [List.mem_singleton, Prod.mk.injEq] at h
      rw [h.1]
      refine ⟨?_, Nat.zero_le _⟩
      intro y hy
      rcases List.mem_singleton.mp hy with rfl
      exact hq _ hqc
    next => simp at h

theorem consumes_cls_digit (q : Char → Bool)
    (hq : ∀ c, q c = true → c.isDigit = true) :
    ConsumesPhone (.cls q) 1 := by
  intro p l m rest h
  cases l with
  | nil => simp [matchRE] at h
  | cons c cs =>
    simp only [matchRE] at h
    split at h
    next hqc =>
      simp only [List.mem_singleton, Prod.mk.injEq] at h
      rw [h.1]
      have hd := hq _ hqc
      constructor
      · intro y hy
        rcases List.mem_singleton.mp hy with rfl
        simp [allowedPhoneC, hd]
      · simp [digitCount, List.countP_cons, hd]
    next => simp at h

theorem consumes_opt (a : RE) (k : Nat) (h : ConsumesPhone a k) :
    ConsumesPhone (.opt a) 0 := by
  intro p l m rest hm
  rcases List.mem_append.mp hm with hm | hm
  · exact ⟨(h p l m rest hm).1, Nat.zero_le _⟩
  · simp only [List.mem_singleton, Prod.mk.injEq] at hm
    rw [hm.1]
    exact ⟨by intro c hc; simp at hc, Nat.zero_le _⟩

theorem consumes_alt (a b : RE) (k : Nat)
    (h1 : ConsumesPhone a k) (h2 : ConsumesPhone b k) :
    ConsumesPhone (.alt a b) k := by
  intro p l m rest hm
  rcases List.mem_append.mp hm with hm | hm
  · exact h1 p l m rest hm
  · exact h2 p l m rest hm

theorem consumes_seq (a b : RE) (k1 k2 : Nat)
    (h1 : ConsumesPhone a k1) (h2 : ConsumesPhone b k2) :
    ConsumesPhone (.seq a b) (k1 + k2) := by
  intro p l m rest hm
  simp only [matchRE, List.mem_flatMap, List.mem_map] at hm
  obtain ⟨⟨x1, x2⟩, hx, ⟨y1, y2⟩, hy, heq⟩ := hm
  obtain ⟨hm1, _⟩ := Prod.mk.injEq .. |>.mp heq
  subst hm1
  obtain ⟨ha1, ha2⟩ := h1 p l x1 x2 hx
  obtain ⟨hb1, hb2⟩ := h2 _ x2 y1 y2 hy
  constructor
  · intro c hc
    rcases List.mem_append.mp hc with hc | hc
    · exact ha1 c hc
    · exact hb1 c hc
  · rw [digitCount_append]
    exact Nat.add_le_add ha2 hb2

theorem consumes_repCls_digit (q : Char → Bool) (lo : Nat) (hi : Option Nat)
    (hq : ∀ c, q c = true → c.isDigit = true) :
    ConsumesPhone (.repCls q lo hi) lo := by
  have main : ∀ (l m rest : Str) (i maxn : Nat),
      maxn ≤ (l.takeWhile q).length → lo ≤ maxn - i →
      m = l.take (maxn - i) →
      (∀ c ∈ m, allowedPhoneC c = true) ∧ lo ≤ digitCount m := by
    intro l m rest i maxn hmax hlo hm
    subst hm
    have hn1 : maxn - i ≤ (l.takeWhile q).length := le_trans (Nat.sub_le _ _) hmax
    have hq' : ∀ c ∈ l.take (maxn - i), q c = true :=
      take_all_of_le_takeWhile q l (maxn - i) hn1
    constructor
    · intro c hc
      have hd := hq c (hq' c hc)
      simp [allowedPhoneC, hd]
    · have hlenW : (l.takeWhile q).length ≤ l.length :=
        (List.takeWhile_prefix q).sublist.length_le
      have hlen : (l.take (maxn - i)).length = maxn - i := by
        rw [List.length_take]
        omega
      have hcnt : digitCount (l.take (maxn - i)) = (l.take (maxn - i)).length := by
        apply List.countP_eq_length.mpr
        intro c hc
        exact hq c (hq' c hc)
      omega
  cases hi with
  | none =>
    intro p l m rest hm
    simp only [matchRE, List.mem_map, List.mem_range] at hm
    obtain ⟨i, hilt, heq⟩ := hm
    obtain ⟨hm1, _⟩ := Prod.mk.injEq .. |>.mp heq
    exact main l m rest i (l.takeWhile q).length (Nat.le_refl _) (by omega) hm1.symm
  | some hb =>
    intro p l m rest hm
    simp only [matchRE, List.mem_map, List.mem_range] at hm
    obtain ⟨i, hilt, heq⟩ := hm
    obtain ⟨hm1, _⟩ := Prod.mk.injEq .. |>.mp heq
    exact main l m rest i (min hb (l.takeWhile q).length)
      (Nat.min_le_right _ _) (by omega) hm1.symm

theorem consumes_mono (r : RE) (k k2 : Nat) (hk : k2 ≤ k)
    (h : ConsumesPhone r k) : ConsumesPhone r k2 := by
  intro p l m rest hm
  obtain ⟨h1, h2⟩ := h p l m rest hm
  exact ⟨h1, le_trans hk h2⟩

theorem consumes_phoneFallbackAlt1 : ConsumesPhone phoneFallbackAlt1 8 := by
  have cPlus : ConsumesPhone (.cls (· = '+')) 0 := by
    apply consumes_cls_allowed
    intro c hc
    simp only [decide_eq_true_eq] at hc
    subst hc
    decide
  have c6 : ConsumesPhone (.cls (· = '6')) 0 := by
    apply consumes_cls_allowed
    intro c hc
    simp only [decide_eq_true_eq] at hc
    subst hc
    decide
  have c1 : ConsumesPhone (.cls (· = '1')) 0 := by
    apply consumes_cls_allowed
    intro c hc
    simp only [decide_eq_true_eq] at hc
    subst hc
    decide
  have cLp : ConsumesPhone (.cls (· = '(')) 0 := by
    apply consumes_cls_allowed
    intro c hc
    simp only [decide_eq_true_eq] at hc
    subst hc
    decide
  have cRp : ConsumesPhone (.cls (· = ')')) 0 := by
    apply consumes_cls_allowed
    intro c hc
    simp only [decide_eq_true_eq] at hc
    subst hc
    decide
  have cZero : ConsumesPhone (.cls (· = '0')) 0 := by
    apply consumes_cls_allowed
    intro c hc
    simp only [decide_eq_true_eq] at hc
    subst hc
    decide
  have cSp : ConsumesPhone (.cls isSpaceC) 0 := by
    apply consumes_cls_allowed
    intro c hc
    simp [allowedPhoneC, hc]
  have c19 : ConsumesPhone (.cls nonzeroDigitC) 1 := by
    apply consumes_cls_digit
    intro c hc
    simp only [nonzeroDigitC, Bool.and_eq_true, decide_eq_true_eq] at hc
    obtain ⟨h1, h2⟩ := hc
    simp only [Char.le_def, UInt32.le_def, BitVec.le_def] at h1 h2
    simp only [Char.isDigit, ge_iff_le, Bool.and_eq_true, decide_eq_true_eq,
      UInt32.le_def, BitVec.le_def]
    have e1 : ('1' : Char).val.toBitVec.toNat = 49 := rfl
    have e9 : ('9' : Char).val.toBitVec.toNat = 57 := rfl
    have e48 : (UInt32.toBitVec 48).toNat = 48 := rfl
    have e57 : (UInt32.toBitVec 57).toNat = 57 := rfl
    omega
  have cD : ConsumesPhone (.cls isDigitC) 1 :=
    consumes_cls_digit _ (fun _ hc => hc)
  have r3 : ConsumesPhone (.repCls isDigitC 3 (some 3)) 3 :=
    consumes_repCls_digit _ _ _ (fun _ hc => hc)
  have grp : ConsumesPhone (.seq (.opt (.cls (· = '+')))
      (.seq (.cls (· = '6')) (.seq (.cls (· = '1')) (.opt (.cls isSpaceC))))) 0 :=
    consumes_seq _ _ 0 0 (consumes_opt _ _ cPlus)
      (consumes_mono _ _ _ (Nat.zero_le _)
        (consumes_seq _ _ 0 0 c6
          (consumes_seq _ _ 0 0 c1 (consumes_opt _ _ cSp))))
  exact consumes_seq _ _ 0 8 (consumes_opt _ _ grp)
    (consumes_seq _ _ 0 8 (consumes_opt _ _ cLp)
      (consumes_seq _ _ 0 8 (consumes_opt _ _ cZero)
        (consumes_seq _ _ 0 8 (consumes_opt _ _ cRp)
          (consumes_seq _ _ 0 8 (consumes_opt _ _ cSp)
            (consumes_seq _ _ 1 7 c19
              (consumes_seq _ _ 1 6 cD
                (consumes_seq _ _ 0 6 (consumes_opt _ _ cSp)
                  (consumes_seq _ _ 3 3 r3
                    (consumes_seq _ _ 0 3 (consumes_opt _ _ cSp) r3)))))))))

theorem consumes_phoneFallbackAlt2 : ConsumesPhone phoneFallbackAlt2 8 := by
  have cZero : ConsumesPhone (.cls (· = '0')) 1 := by
    apply consumes_cls_digit
    intro c hc
    simp only [decide_eq_true_eq] at hc
    subst hc
    decide
  have cFour : ConsumesPhone (.cls (· = '4')) 1 := by
    apply consumes_cls_digit
    intro c hc
    simp only [decide_eq_true_eq] at hc
    subst hc
    decide
  have cSp : ConsumesPhone (.cls isSpaceC) 0 := by
    apply consumes_cls_allowed
    intro c hc
    simp [allowedPhoneC, hc]
  have r2 : ConsumesPhone (.repCls isDigitC 2 (some 2)) 2 :=
    consumes_repCls_digit _ _ _ (fun _ hc => hc)
  have r3 : ConsumesPhone (.repCls isDigitC 3 (some 3)) 3 :=
    consumes_repCls_digit _ _ _ (fun _ hc => hc)
  apply consumes_mono _ _ _ (by omega :
    (8 : Nat) ≤ 1 + (1 + (2 + (0 + (3 + (0 + 3))))))
  exact consumes_seq _ _ 1 (1 + (2 + (0 + (3 + (0 + 3))))) cZero
    (consumes_seq _ _ 1 (2 + (0 + (3 + (0 + 3)))) cFour
      (consumes_seq _ _ 2 (0 + (3 + (0 + 3))) r2
        (consumes_seq _ _ 0 (3 + (0 + 3)) (consumes_opt _ _ cSp)
          (consumes_seq _ _ 3 (0 + 3) r3
            (consumes_seq _ _ 0 3 (consumes_opt _ _ cSp) r3)))))

theorem consumes_phoneFallback : ConsumesPhone phoneFallbackRE 8 :=
  consumes_alt _ _ 8 consumes_phoneFallbackAlt1 consumes_phoneFallbackAlt2

theorem searchRE_some (r : RE) :
    ∀ (l : Str) (p : Option Char) (bef m aft : Str),
      searchRE r p l = some (bef, m, aft) →
      bef ++ m ++ aft = l ∧ ∃ q, (m, aft) ∈ matchRE r q (m ++ aft) := by
  intro l
  induction l with
  | nil =>
    intro p bef m aft h
    rw [searchRE] at h
    cases hm : matchRE r p [] with
    | nil => rw [hm] at h; simp at h
    | cons x xs =>
      obtain ⟨x1, x2⟩ := x
      rw [hm] at h
      simp only [Option.some.injEq, Prod.mk.injEq] at h
      obtain ⟨h1, h2, h3⟩ := h
      subst h1; subst h2; subst h3
      have hx : x1 ++ x2 = [] :=
        mem_matchRE_append r p [] x1 x2 (by rw [hm]; exact List.mem_cons_self _ _)
      refine ⟨by simpa using hx, p, ?_⟩
      rw [hx, hm]
      exact List.mem_cons_self _ _
  | cons c cs ih =>
    intro p bef m aft h
    rw [searchRE] at h
    cases hm : matchRE r p (c :: cs) with
    | cons x xs =>
      obtain ⟨x1, x2⟩ := x
      rw [hm] at h
      simp only [Option.some.injEq, Prod.mk.injEq] at h
      obtain ⟨h1, h2, h3⟩ := h
      subst h1; subst h2; subst h3
      have hx : x1 ++ x2 = c :: cs :=
        mem_matchRE_append r p (c :: cs) x1 x2 (by rw [hm]; exact List.mem_cons_self _ _)
      refine ⟨by simpa using hx, p, ?_⟩
      rw [hx, hm]
      exact List.mem_cons_self _ _
    | nil =>
      rw [hm] at h
      cases hs : searchRE r (some c) cs with
      | none => rw [hs] at h; simp at h
      | some y =>
        obtain ⟨b0, m0, a0⟩ := y
        rw [hs] at h
        simp only [Option.some.injEq, Prod.mk.injEq] at h
        obtain ⟨h1, h2, h3⟩ := h
        subst h1; subst h2; subst h3
        obtain ⟨ihsplit, q, ihmem⟩ := ih (some c) b0 m0 a0 hs
        refine ⟨?_, q, ihmem⟩
        rw [← ihsplit]
        simp [List.append_assoc]

theorem mem_of_getLast?_eq_some :
    ∀ {l : Str} {x : Char}, l.getLast? = some x → x ∈ l := by
  intro l
  induction l with
  | nil => intro x h; simp at h
  | cons c cs ih =>
    intro x h
    cases cs with
    | nil =>
      have : (c :: ([] : Str)).getLast? = some c := rfl
      rw [this, Option.some_inj] at h
      simp [h]
    | cons d ds =>
      rw [List.getLast?_cons_cons] at h
      exact List.mem_cons_of_mem _ (ih h)

theorem year_dash_in_match (e b m aft : Str)
    (haft : digitCount aft = 0)
    (heq : m ++ aft = (e ++ "2020-2022".toList) ++ b) :
    '-' ∈ m := by
  rcases List.append_eq_append_iff.mp heq with ⟨f, hf1, hf2⟩ | ⟨g, hg1, _⟩
  · -- hf1 : e ++ year = m ++ f, hf2 : aft = f ++ b
    have hffree : digitCount f = 0 := by
      have h2 := congrArg digitCount hf2
      rw [digitCount_append] at h2
      omega
    cases hfe : f with
    | nil =>
      subst hfe
      rw [List.append_nil] at hf1
      rw [← hf1]
      exact List.mem_append_right _ (by decide)
    | cons fx fs =>
      exfalso
      have hsome : ∃ z, f.getLast? = some z := by
        subst hfe
        exact Option.isSome_iff_exists.mp (List.getLast?_isSome.mpr (by simp))
      obtain ⟨z, hz⟩ := hsome
      have h1 : (m ++ f).getLast? = some z := by
        rw [List.getLast?_append, hz]
        rfl
      have h2 : (e ++ "2020-2022".toList).getLast? = some '2' := by
        rw [List.getLast?_append]
        rfl
      rw [← hf1] at h1
      rw [h2] at h1
      obtain rfl : z = '2' := by simpa using h1.symm
      have hz2 : '2' ∈ f := mem_of_getLast?_eq_some hz
      have : 0 < digitCount f := List.countP_pos_iff.mpr ⟨'2', hz2, by decide⟩
      omega
  · -- hg1 : m = (e ++ year) ++ g
    rw [hg1]
    exact List.mem_append_left _ (List.mem_append_right _ (by decide))

/-! ## C7 -/

/-- C7: the fallback extractor's phone pattern never classifies a bare year
range as a phone number — for every text whose only digit-bearing content is
the year range `2020-2022` (digit-free prefix and suffix around it), the
fallback extraction returns an empty phone.  Any match of the pattern
consumes at least eight digits using only digits, `+`, parentheses and
whitespace; in such a text eight digits force the match across the hyphen,
which the pattern cannot consume. -/
theorem C7_fallback_phone_year_range :
    ∀ a b : Str, (∀ c ∈ a, c.isDigit = false) → (∀ c ∈ b, c.isDigit = false) →
      fallbackPhone (a ++ "2020-2022".toList ++ b) = [] := by
  intro a b ha hb
  cases hsearch : searchRE phoneFallbackRE none (a ++ "2020-2022".toList ++ b) with
  | none =>
    simp only [fallbackPhone]
    rw [hsearch]
  | some x =>
    exfalso
    obtain ⟨bef, m, aft⟩ := x
    obtain ⟨hsplit, q, hmem⟩ :=
      searchRE_some phoneFallbackRE (a ++ "2020-2022".toList ++ b) none bef m aft hsearch
    obtain ⟨hallowed, hdigits⟩ := consumes_phoneFallback q (m ++ aft) m aft hmem
    have hA : digitCount a = 0 :=
      List.countP_eq_zero.mpr (by intro c hc; simp [ha c hc])
    have hB : digitCount b = 0 :=
      List.countP_eq_zero.mpr (by intro c hc; simp [hb c hc])
    have hyear : digitCount "2020-2022".toList = 8 := by decide
    have htot := congrArg digitCount hsplit
    rw [digitCount_append, digitCount_append, digitCount_append,
      digitCount_append] at htot
    have haft0 : digitCount aft = 0 := by omega
    have hbef0 : digitCount bef = 0 := by omega
    rw [List.append_assoc] at hsplit
    rw [List.append_assoc] at hsplit
    have hdash : '-' ∈ m := by
      rcases List.append_eq_append_iff.mp hsplit with ⟨e, he1, he2⟩ | ⟨e, he1, he2⟩
      · rw [← List.append_assoc] at he2
        exact year_dash_in_match e b m aft haft0 he2
      · have he0 : digitCount e = 0 := by
          have hc := congrArg digitCount he1
          rw [digitCount_append] at hc
          omega
        cases e with
        | nil =>
          apply year_dash_in_match [] b m aft haft0
          rw [List.nil_append]
          exact he2.symm
        | cons x e2 =>
          have hy : "2020-2022".toList ++ b = '2' :: ("020-2022".toList ++ b) := rfl
          rw [hy] at he2
          have hx2 : x = '2' := ((List.cons.injEq .. |>.mp he2).1).symm
          subst hx2
          have hpos : 0 < digitCount ('2' :: e2) :=
            List.countP_pos_iff.mpr ⟨'2', List.mem_cons_self _ _, by decide⟩
          omega
    have hbad := hallowed '-' hdash
    exact absurd hbad (by decide)

/-- C7 witness: the theorem applied to a concrete resume-like line around the
year range, with the digit-free hypotheses discharged by evaluation. -/
theorem C7_fallback_phone_year_range_witness :
    (∀ c ∈ "Employed ".toList, c.isDigit = false) ∧
    (∀ c ∈ " at ACME.".toList, c.isDigit = false) ∧
    fallbackPhone ("Employed ".toList ++ "2020-2022".toList ++ " at ACME.".toList) = [] :=
  ⟨by decide, by decide,
   C7_fallback_phone_year_range "Employed ".toList " at ACME.".toList
     (by decide) (by decide)⟩

end RefCheck

